import Mathlib

/-!
# Verification of the trapdoor-mesh access-control core

A shallow embedding of `src/security.py` and `src/security_integration.py`:
the token store (`TokenManager`), the multi-window rate limiter
(`RateLimiter`), the approval queue (`ApprovalQueue`) and the authorization
pipeline (`require_auth_and_permission`).

Modelling conventions:
* Python `dict`s become association lists `List (String × α)` with
  `dget` / `dinsert` / `derase` mirroring lookup, assignment and deletion.
* Wall-clock instants (`time.time()`, `datetime.now()`) become `ℚ` values
  passed explicitly; `timedelta(days=d)` is `d * 86400` seconds.
* Filesystem canonicalization (`Path.resolve`, `Path.expanduser`) cannot be
  computed without a filesystem, so the path rules are parameterized by two
  functions `res` (for `str(path.resolve())`) and `eres` (for
  `str(Path(entry).expanduser().resolve())`).
* Randomness (`secrets.token_hex`) becomes an explicit argument carrying the
  generated value.
* Raised exceptions become `Except`/`Option` errors of type `Err`; an
  `HTTPException(status, detail)` is `Err.http status detail`, and Python
  `TypeError` / `KeyError` / `ValueError` have their own constructors.
-/

namespace Trapdoor

/-- Failures raised by the security core.  `http` covers `HTTPException` and
its subclasses (`PermissionError` 403, `RateLimitExceeded` 429,
`TokenExpiredError` 401); the remaining constructors model Python runtime
exceptions that escape the module. -/
inductive Err where
  | http (status : Nat) (detail : String)
  | typeError (msg : String)
  | keyError (msg : String)
  | valueError (msg : String)
deriving DecidableEq, Repr

/-- Dictionary lookup: `d.get(k)` / `k in d` (first binding wins, as for a
Python dict whose keys are unique). -/
def dget {α : Type} : List (String × α) → String → Option α
  | [], _ => none
  | p :: t, k => if p.1 = k then some p.2 else dget t k

/-- Dictionary deletion `del d[k]`. -/
def derase {α : Type} : List (String × α) → String → List (String × α)
  | [], _ => []
  | p :: t, k => if p.1 = k then derase t k else p :: derase t k

/-- Dictionary assignment `d[k] = v` (replaces any previous binding). -/
def dinsert {α : Type} (l : List (String × α)) (k : String) (v : α) :
    List (String × α) :=
  (k, v) :: derase l k

/-- Python truthiness of an `Optional[List[...]]` field: `None` and the empty
list are falsy. -/
def listTruthy {α : Type} : Option (List α) → Bool
  | none => false
  | some l => !l.isEmpty

/-- Python `str.startswith(prefix)`, modelled on the character list (the
built-in `String.startsWith` works on byte positions and does not reduce
in the kernel). -/
def strStartsWith (s pre : String) : Bool :=
  pre.data.isPrefixOf s.data

/-- Split a character list at every slash. -/
def splitSlash : List Char → List (List Char)
  | [] => [[]]
  | c :: rest =>
    match splitSlash rest with
    | [] => [[]]
    | h :: t => if c = '/' then [] :: h :: t else (c :: h) :: t

/-- `Path(command[0]).name`: the basename of the executable — the last
slash-separated component after dropping the empty and `.` components that
`pathlib` collapses when parsing (`..` is kept, as `pathlib` keeps it). -/
def pathBasename (s : String) : String :=
  ⟨((splitSlash s.data).filter
    (fun c => c ≠ [] ∧ c ≠ ['.'])).getLastD []⟩

/-- Embedding of the `TokenInfo` dataclass (`src/security.py` lines 52-86).
The free-form `metadata` dict is modelled as string-to-string pairs and
`details` payloads are dropped where they do not influence control flow. -/
structure TokenInfo where
  token_id : String
  name : String
  token : String
  scopes : List String
  created : ℚ
  enabled : Bool := true
  expires : Option ℚ := none
  last_used : Option ℚ := none
  path_allowlist : Option (List String) := none
  path_denylist : Option (List String) := none
  command_allowlist : Option (List String) := none
  command_denylist : Option (List String) := none
  rate_limits : List (String × Nat) := [("requests_per_minute", 120)]
  operation_limits : List (String × List (String × Nat)) := []
  require_approval : List String := []
  metadata : List (String × String) := []
deriving DecidableEq, Repr

/-- In-memory state of a `TokenManager` (`src/security.py` lines 144-157):
`tokens` maps token-id to `TokenInfo`, `token_lookup` maps secret to
token-id, plus the process-wide global rules. -/
structure TMState where
  tokens : List (String × TokenInfo) := []
  token_lookup : List (String × String) := []
  global_denylist : List String := []
  require_approval_operations : List String := []
deriving DecidableEq, Repr

/-- `TokenManager.validate_token` (lines 200-224).  `now` stands for
`datetime.now()`; on success `last_used` is updated and the new manager
state is returned together with the token.  The guard `if not token_id:`
(line 206) is a truthiness test, so both a missing lookup entry and an
empty-string token-id raise 403. -/
def validate_token (s : TMState) (now : ℚ) (token : String) :
    Except Err (TokenInfo × TMState) :=
  if token = "" then .error (.http 401 "Missing token")
  else
    match dget s.token_lookup token with
    | none => .error (.http 403 "Invalid token")
    | some token_id =>
      if token_id = "" then .error (.http 403 "Invalid token")
      else
      match dget s.tokens token_id with
      | none => .error (.keyError token_id)
      | some token_info =>
        if token_info.enabled = false then
          .error (.http 403 "Token is disabled")
        else
          let record : Except Err (TokenInfo × TMState) :=
            let ti := { token_info with last_used := some now }
            .ok (ti, { s with tokens := dinsert s.tokens token_id ti })
          match token_info.expires with
          | some exp =>
            if now > exp then .error (.http 401 "Token expired")
            else record
          | none => record

/-- `TokenManager._check_path_allowed` (lines 273-298).  `res p` models
`str(p.resolve())` and `eres d` models
`str(Path(d).expanduser().resolve())`. -/
def check_path_allowed (s : TMState) (res eres : String → String)
    (token_info : TokenInfo) (path : String) : Bool :=
  let path_str := res path
  if (s.global_denylist.any fun d => strStartsWith path_str (eres d)) then
    false
  else if ((token_info.path_denylist.getD []).any
      fun d => strStartsWith path_str (eres d)) then
    false
  else if listTruthy token_info.path_allowlist then
    (token_info.path_allowlist.getD []).any
      fun a => strStartsWith path_str (eres a)
  else
    true

/-- `TokenManager._check_command_allowed` (lines 300-321). -/
def check_command_allowed (token_info : TokenInfo)
    (command : List String) : Bool :=
  match command with
  | [] => false
  | c0 :: _ =>
    let cmd_name := pathBasename c0
    let full_cmd := String.intercalate " " command
    if ((token_info.command_denylist.getD []).any
        fun d => cmd_name == d || strStartsWith full_cmd d) then
      false
    else if listTruthy token_info.command_allowlist then
      (token_info.command_allowlist.getD []).any fun a => cmd_name == a
    else
      true

/-- The guard `command and "sudo" in command` of `check_permission`
(line 257): the command vector is truthy and contains `sudo`. -/
def sudoRequested : Option (List String) → Bool
  | some c => !c.isEmpty && c.contains "sudo"
  | none => false

/-- `TokenManager.check_permission` (lines 226-271): admin bypass, the
operation-to-scope mapping, then path rules, then command rules. -/
def check_permission (s : TMState) (res eres : String → String)
    (token_info : TokenInfo) (operation : String)
    (path : Option String) (command : Option (List String)) :
    Except Err Bool :=
  if "admin" ∈ token_info.scopes then .ok true
  else if (operation = "fs_ls" ∨ operation = "fs_read") ∧
      "read" ∉ token_info.scopes then
    .error (.http 403 ("Token " ++ token_info.name ++
      " lacks read scope for " ++ operation))
  else if (operation = "fs_write" ∨ operation = "fs_mkdir") ∧
      "write" ∉ token_info.scopes then
    .error (.http 403 ("Token " ++ token_info.name ++
      " lacks write scope for " ++ operation))
  else if operation = "fs_rm" ∧
      "write:destructive" ∉ token_info.scopes then
    .error (.http 403 ("Token " ++ token_info.name ++
      " lacks write:destructive scope for " ++ operation))
  else if operation = "exec" ∧ "exec" ∉ token_info.scopes then
    .error (.http 403 ("Token " ++ token_info.name ++
      " lacks exec scope for " ++ operation))
  else if operation = "exec" ∧ sudoRequested command = true ∧
      "exec:sudo" ∉ token_info.scopes then
    .error (.http 403 ("Token " ++ token_info.name ++
      " lacks exec:sudo scope"))
  else
    match path with
    | some p =>
      if check_path_allowed s res eres token_info p = false then
        .error (.http 403 ("Path not allowed: " ++ p))
      else
        match command with
        | some c =>
          if ¬c.isEmpty ∧ check_command_allowed token_info c = false then
            .error (.http 403 ("Command not allowed: " ++ c.headD ""))
          else .ok true
        | none => .ok true
    | none =>
      match command with
      | some c =>
        if ¬c.isEmpty ∧ check_command_allowed token_info c = false then
          .error (.http 403 ("Command not allowed: " ++ c.headD ""))
        else .ok true
      | none => .ok true

/-- `TokenManager.rotate_token` (lines 323-341).  `new_token` carries the
value produced by `secrets.token_hex(16)`.  The whole body runs under the
manager lock, so it is a single atomic transition of the state. -/
def rotate_token (s : TMState) (token_id : String) (new_token : String) :
    Except Err (String × TMState) :=
  match dget s.tokens token_id with
  | none => .error (.valueError ("Token ID not found: " ++ token_id))
  | some ti =>
    let old_token := ti.token
    .ok (new_token,
      { s with
        tokens := dinsert s.tokens token_id { ti with token := new_token },
        token_lookup :=
          dinsert (derase s.token_lookup old_token) new_token token_id })

/-- The `**kwargs` accepted by `create_token` that the repository actually
passes (`migrate_legacy_tokens` passes `token=` and `metadata=`). -/
structure CreateKwargs where
  token : Option String := none
  metadata : List (String × String) := []
deriving DecidableEq, Repr

/-- `TokenManager.create_token` (lines 343-373).  `gen_token_id` and
`gen_token` carry the two `secrets.token_hex` draws.  The constructor call
`TokenInfo(..., token=token, ..., **kwargs)` passes the keyword `token`
explicitly, so a `token` key inside `kwargs` raises
`TypeError: got multiple values for keyword argument` in Python; the
embedding returns that as `Err.typeError`. -/
def create_token (s : TMState) (gen_token_id gen_token : String)
    (name : String) (scopes : List String) (expires_in_days : Option Nat)
    (now : ℚ) (kwargs : CreateKwargs) : Except Err (TokenInfo × TMState) :=
  let token_id := "token_" ++ gen_token_id
  let token := gen_token
  let expires : Option ℚ :=
    match expires_in_days with
    | some d => if d = 0 then none else some (now + d * 86400)
    | none => none
  match kwargs.token with
  | some _ =>
    .error (.typeError "got multiple values for keyword argument token")
  | none =>
    let token_info : TokenInfo :=
      { token_id := token_id, name := name, token := token,
        scopes := scopes, created := now, expires := expires,
        metadata := kwargs.metadata }
    .ok (token_info,
      { s with tokens := dinsert s.tokens token_id token_info,
               token_lookup := dinsert s.token_lookup token token_id })

/-- `TokenManager.migrate_legacy_tokens` (lines 384-395): wrap each legacy
secret not already in `token_lookup` via `create_token`, passing the secret
as the `token=` keyword argument.  `gens` supplies the `secrets.token_hex`
draws for each `create_token` call; an exception aborts the loop. -/
def migrate_legacy_tokens (s : TMState) (gens : List (String × String))
    (legacy : List String) (now : ℚ) : Except Err TMState :=
  match legacy with
  | [] => .ok s
  | t :: rest =>
    if (dget s.token_lookup t).isSome then
      migrate_legacy_tokens s gens rest now
    else
      match create_token s (gens.headD ("", "")).1 (gens.headD ("", "")).2
          "Migrated Legacy Token" ["admin"] none now
          { token := some t,
            metadata := [("migrated", "true")] } with
      | .error e => .error e
      | .ok (_, s2) => migrate_legacy_tokens s2 (gens.drop 1) rest now

/-! ## Rate limiter (`src/security.py` lines 400-488) -/

/-- State of a `RateLimiter`: the three window stores, each mapping a
storage key to the deque of recorded request timestamps. -/
structure RLState where
  per_minute : List (String × List ℚ) := []
  per_hour : List (String × List ℚ) := []
  per_day : List (String × List ℚ) := []
deriving DecidableEq, Repr

/-- The text for a window in the rate-limit error (lines 471-477). -/
def windowDesc (window : Nat) : String :=
  if window = 60 then "minute"
  else if window = 3600 then "hour"
  else if window = 86400 then "day"
  else toString window ++ "s"

/-- The operation suffix of the rate-limit error (line 479). -/
def opDesc : Option String → String
  | some op => " for " ++ op
  | none => ""

/-- The `RateLimitExceeded` detail string (lines 480-482). -/
def rateLimitMsg (limit window : Nat) (operation : Option String) : String :=
  "Rate limit exceeded: " ++ toString limit ++ " requests per " ++
    windowDesc window ++ opDesc operation

/-- `RateLimiter._check_window` (lines 452-484): prune entries older than
`now - window`, fail when the remaining count reaches the limit, otherwise
append `now`.  Returns the possible error together with the updated store:
on failure the pruned history is kept (the mutation is not rolled back). -/
def check_window (storage : List (String × List ℚ)) (key : String)
    (now : ℚ) (window : Nat) (limit : Nat) (operation : Option String) :
    Option Err × List (String × List ℚ) :=
  let storage_key :=
    match operation with
    | some op => key ++ ":" ++ op
    | none => key
  let history := (dget storage storage_key).getD []
  let cutoff := now - window
  let pruned := history.dropWhile (fun t => t < cutoff)
  if limit ≤ pruned.length then
    (some (.http 429 (rateLimitMsg limit window operation)),
      dinsert storage storage_key pruned)
  else
    (none, dinsert storage storage_key (pruned ++ [now]))

/-- `RateLimiter.check_and_record` (lines 409-450): run the minute, hour and
day windows in that order for the windows present in `limits`; the first
failure propagates, leaving the mutations already made in place. -/
def check_and_record (st : RLState) (token_fp : String)
    (limits : List (String × Nat)) (operation : Option String) (now : ℚ) :
    Option Err × RLState :=
  let stepMinute : Option Err × RLState :=
    match dget limits "requests_per_minute" with
    | none => (none, st)
    | some lim =>
      let r := check_window st.per_minute token_fp now 60 lim operation
      (r.1, { st with per_minute := r.2 })
  match stepMinute with
  | (some e, st1) => (some e, st1)
  | (none, st1) =>
    let stepHour : Option Err × RLState :=
      match dget limits "requests_per_hour" with
      | none => (none, st1)
      | some lim =>
        let r := check_window st1.per_hour token_fp now 3600 lim operation
        (r.1, { st1 with per_hour := r.2 })
    match stepHour with
    | (some e, st2) => (some e, st2)
    | (none, st2) =>
      match dget limits "requests_per_day" with
      | none => (none, st2)
      | some lim =>
        let r := check_window st2.per_day token_fp now 86400 lim operation
        (r.1, { st2 with per_day := r.2 })

/-- A sequence of `check_and_record` calls at successive instants, stopping
at the first failure. -/
def run_calls (st : RLState) (token_fp : String)
    (limits : List (String × Nat)) (operation : Option String) :
    List ℚ → Option Err × RLState
  | [] => (none, st)
  | t :: ts =>
    match check_and_record st token_fp limits operation t with
    | (some e, st2) => (some e, st2)
    | (none, st2) => run_calls st2 token_fp limits operation ts

/-! ## Approval queue (`src/security.py` lines 493-573) -/

/-- The `PendingOperation` dataclass (lines 132-139), details elided to the
operation name. -/
structure PendingOperation where
  request_id : String
  operation : String
  timestamp : ℚ
  status : String := "pending"
deriving DecidableEq, Repr

/-- State of an `ApprovalQueue`: the pending map. -/
structure AQState where
  pending : List (String × PendingOperation) := []
deriving DecidableEq, Repr

/-- `ApprovalQueue.request_approval` (lines 500-517); `gen_id` carries the
`secrets.token_hex(8)` draw. -/
def request_approval (q : AQState) (gen_id : String) (operation : String)
    (now : ℚ) : String × AQState :=
  (gen_id,
    ⟨dinsert q.pending gen_id
      { request_id := gen_id, operation := operation, timestamp := now }⟩)

/-- One iteration of the polling loop inside `ApprovalQueue.check_approval`
(lines 523-536): `some b` means the waiter returns `b` (deleting the entry
on a decision), `none` means the entry is still pending and the waiter
sleeps and polls again. -/
def check_approval_poll (q : AQState) (request_id : String) :
    Option Bool × AQState :=
  match dget q.pending request_id with
  | none => (some false, q)
  | some op =>
    if op.status = "approved" then (some true, ⟨derase q.pending request_id⟩)
    else if op.status = "denied" then
      (some false, ⟨derase q.pending request_id⟩)
    else (none, q)

/-- The timeout tail of `ApprovalQueue.check_approval` (lines 538-543):
remove the entry and return false. -/
def check_approval_timeout (q : AQState) (request_id : String) :
    Bool × AQState :=
  (false, ⟨derase q.pending request_id⟩)

/-- `ApprovalQueue.approve` (lines 545-551). -/
def approve (q : AQState) (request_id : String) : Bool × AQState :=
  match dget q.pending request_id with
  | some op =>
    (true, ⟨dinsert q.pending request_id { op with status := "approved" }⟩)
  | none => (false, q)

/-- `ApprovalQueue.deny` (lines 553-559). -/
def deny (q : AQState) (request_id : String) : Bool × AQState :=
  match dget q.pending request_id with
  | some op =>
    (true, ⟨dinsert q.pending request_id { op with status := "denied" }⟩)
  | none => (false, q)

/-! ## Authorization pipeline (`src/security_integration.py` lines 86-172) -/

/-- `require_auth_and_permission`.  `fp` models
`RateLimiter.get_token_fingerprint` (a SHA-256 prefix, opaque here);
`approval_decision` carries the outcome of the blocking
`request_approval` / `check_approval` exchange when the operation needs
approval.  Returns the result together with the updated token-manager and
rate-limiter states. -/
def parseBearer : Option String → Except Err String
  | none => .error (.http 401 "Missing/invalid Authorization header")
  | some auth =>
    if strStartsWith auth "Bearer " = false then
      .error (.http 401 "Missing/invalid Authorization header")
    else
      .ok (auth.drop 7)

def require_auth_and_permission (res eres fp : String → String)
    (tm : TMState) (rl : RLState) (approval_decision : Bool)
    (authorization : Option String) (operation : String)
    (path : Option String) (command : Option (List String))
    (skip_rate_limit : Bool) (now : ℚ) :
    Except Err TokenInfo × TMState × RLState :=
  match parseBearer authorization with
  | .error e => (.error e, tm, rl)
  | .ok token =>
      match validate_token tm now token with
      | .error e => (.error e, tm, rl)
      | .ok (token_info, tm2) =>
        match check_permission tm2 res eres token_info operation path
            command with
        | .error e => (.error e, tm2, rl)
        | .ok _ =>
          if (operation ∈ token_info.require_approval ∨
              operation ∈ tm2.require_approval_operations) ∧
              approval_decision = false then
            (.error (.http 403 ("Approval denied or timed out for " ++
              operation)), tm2, rl)
          else if skip_rate_limit then (.ok token_info, tm2, rl)
          else
            let token_fp := fp token
            match check_and_record rl token_fp token_info.rate_limits
                none now with
            | (some e, rl2) => (.error e, tm2, rl2)
            | (none, rl2) =>
              match dget token_info.operation_limits operation with
              | none => (.ok token_info, tm2, rl2)
              | some op_limits =>
                match check_and_record rl2 token_fp op_limits
                    (some operation) now with
                | (some e, rl3) => (.error e, tm2, rl3)
                | (none, rl3) => (.ok token_info, tm2, rl3)

/-- Whether a failure is the rate limiter's own (`RateLimitExceeded`,
status 429). -/
def isRateLimited : Err → Bool
  | .http 429 _ => true
  | _ => false

/-- Whether a failure carries the Unauthenticated discriminant (the one the
transport layer maps to a 401-equivalent). -/
def isUnauthenticated : Err → Bool
  | .http 401 _ => true
  | _ => false

/-- The secret/token-id correspondence the `TokenManager` maintains between
`tokens` and `token_lookup`: every stored token's secret resolves back to
its id, and every lookup entry points at a stored token with that secret.
Together with the functional lookup this says each secret value maps to
exactly one token-id. -/
def TMInv (s : TMState) : Prop :=
  (∀ tid ti, dget s.tokens tid = some ti →
    dget s.token_lookup ti.token = some tid) ∧
  (∀ sec tid, dget s.token_lookup sec = some tid →
    ∃ ti, dget s.tokens tid = some ti ∧ ti.token = sec)

/-- The state produced by a successful `rotate_token s token_id new_token`
call when `tokens[token_id] = ti`: the stored record gets the new secret,
the lookup drops the old secret and gains the new one (lines 328-337). -/
def rotated (s : TMState) (token_id : String) (ti : TokenInfo)
    (new_token : String) : TMState :=
  { s with
    tokens := dinsert s.tokens token_id { ti with token := new_token },
    token_lookup :=
      dinsert (derase s.token_lookup ti.token) new_token token_id }

/-! ## Concrete sample states used to instantiate the theorems -/

/-- A plain read-scoped token. -/
def tiSample : TokenInfo :=
  { token_id := "t1", name := "tok", token := "sek", scopes := ["read"],
    created := 0 }

/-- A one-token manager state holding `tiSample`. -/
def tmSample : TMState :=
  { tokens := [("t1", tiSample)], token_lookup := [("sek", "t1")] }

/-- A pending `fs_rm` approval request with a given status. -/
def opSample (st : String) : PendingOperation :=
  { request_id := "r1", operation := "fs_rm", timestamp := 0, status := st }

/-- A queue holding the single entry `r1` with a given status. -/
def qSample (st : String) : AQState :=
  ⟨[("r1", opSample st)]⟩

/-! ## Dictionary lemmas -/

theorem dget_derase_self {α : Type} (l : List (String × α)) (k : String) :
    dget (derase l k) k = none := by
  induction l with
  | nil => rfl
  | cons p t ih =>
    by_cases hp : p.1 = k
    · simpa [derase, hp] using ih
    · simpa [derase, dget, hp] using ih

theorem dget_derase_ne {α : Type} (l : List (String × α)) (k k2 : String)
    (h : k2 ≠ k) : dget (derase l k) k2 = dget l k2 := by
  induction l with
  | nil => rfl
  | cons p t ih =>
    have hk : ¬(k = k2) := fun he => h he.symm
    by_cases hp : p.1 = k
    · simpa [derase, dget, hp, hk] using ih
    · by_cases hq : p.1 = k2
      · simp [derase, dget, hp, hq, h]
      · simpa [derase, dget, hp, hq] using ih

theorem dget_dinsert_self {α : Type} (l : List (String × α)) (k : String)
    (v : α) : dget (dinsert l k v) k = some v := by
  simp [dget, dinsert]

theorem dget_dinsert_ne {α : Type} (l : List (String × α)) (k k2 : String)
    (v : α) (h : k2 ≠ k) : dget (dinsert l k v) k2 = dget l k2 := by
  have hne : k ≠ k2 := fun he => h he.symm
  simp only [dget, dinsert, hne, if_false]
  exact dget_derase_ne l k k2 h

/-! ## Path-rule lemmas -/

theorem check_path_allowed_of_denylist_hit (s : TMState)
    (res eres : String → String) (ti : TokenInfo) (p : String)
    (hdeny : (∃ d ∈ s.global_denylist, strStartsWith (res p) (eres d)) ∨
      (∃ d ∈ ti.path_denylist.getD [], strStartsWith (res p) (eres d))) :
    check_path_allowed s res eres ti p = false := by
  unfold check_path_allowed
  rcases hdeny with ⟨d, hd, hs⟩ | ⟨d, hd, hs⟩
  · have hg : (s.global_denylist.any
        fun d => strStartsWith (res p) (eres d)) = true :=
      List.any_eq_true.mpr ⟨d, hd, hs⟩
    simp [hg]
  · have ht : ((ti.path_denylist.getD []).any
        fun d => strStartsWith (res p) (eres d)) = true :=
      List.any_eq_true.mpr ⟨d, hd, hs⟩
    by_cases hg : (s.global_denylist.any
        fun d => strStartsWith (res p) (eres d)) = true
    · simp [hg]
    · simp [hg, ht]

theorem check_path_allowed_of_allowlist_miss (s : TMState)
    (res eres : String → String) (ti : TokenInfo) (p : String)
    (al : List String) (hal : ti.path_allowlist = some al) (hne : al ≠ [])
    (hmiss : ∀ a ∈ al, strStartsWith (res p) (eres a) = false) :
    check_path_allowed s res eres ti p = false := by
  unfold check_path_allowed
  have htr : listTruthy ti.path_allowlist = true := by
    rw [hal]
    simpa [listTruthy] using hne
  have hany : ((ti.path_allowlist.getD []).any
      fun a => strStartsWith (res p) (eres a)) = false := by
    rw [hal]
    simp only [Option.getD_some, List.any_eq_false]
    intro a ha
    simp [hmiss a ha]
  by_cases hg : (s.global_denylist.any
      fun d => strStartsWith (res p) (eres d)) = true
  · simp [hg]
  · by_cases ht : ((ti.path_denylist.getD []).any
        fun d => strStartsWith (res p) (eres d)) = true
    · simp [hg, ht]
    · simp [hg, ht, htr, hany]

/-- When a supplied path fails `check_path_allowed`, `check_permission`
fails with some 403 error for a non-admin token (either a scope failure on
the way, or `Path not allowed`). -/
theorem check_permission_path_denied (s : TMState)
    (res eres : String → String) (ti : TokenInfo) (operation : String)
    (p : String) (command : Option (List String))
    (hadmin : "admin" ∉ ti.scopes)
    (hpa : check_path_allowed s res eres ti p = false) :
    ∃ detail, check_permission s res eres ti operation (some p) command =
      .error (.http 403 detail) := by
  unfold check_permission
  rw [if_neg hadmin]
  by_cases h1 : (operation = "fs_ls" ∨ operation = "fs_read") ∧
      "read" ∉ ti.scopes
  · exact ⟨_, by rw [if_pos h1]⟩
  rw [if_neg h1]
  by_cases h2 : (operation = "fs_write" ∨ operation = "fs_mkdir") ∧
      "write" ∉ ti.scopes
  · exact ⟨_, by rw [if_pos h2]⟩
  rw [if_neg h2]
  by_cases h3 : operation = "fs_rm" ∧ "write:destructive" ∉ ti.scopes
  · exact ⟨_, by rw [if_pos h3]⟩
  rw [if_neg h3]
  by_cases h4 : operation = "exec" ∧ "exec" ∉ ti.scopes
  · exact ⟨_, by rw [if_pos h4]⟩
  rw [if_neg h4]
  by_cases h5 : operation = "exec" ∧ sudoRequested command = true ∧
      "exec:sudo" ∉ ti.scopes
  · exact ⟨_, by rw [if_pos h5]⟩
  rw [if_neg h5]
  exact ⟨"Path not allowed: " ++ p, by simp [hpa]⟩

/-! ## C1: denylist precedence -/

/-- C1 counterexample: the claim quantifies over every token, but a token
holding the `admin` scope bypasses all path rules (`check_permission`
line 236).  Here the resolved path `/etc/passwd` has the prefix `/etc`
listed in the token's path denylist, yet `check_permission` succeeds. -/
theorem c1_counterexample :
    strStartsWith "/etc/passwd" "/etc" = true ∧
    check_permission { global_denylist := ["/secret"] } id id
      { tiSample with scopes := ["admin"], path_denylist := some ["/etc"] }
      "fs_read" (some "/etc/passwd") none = .ok true := by
  exact ⟨by decide, rfl⟩

/-- C1 (amended): for every token WITHOUT the admin scope, every operation
and every supplied path whose resolved form has a prefix listed in the
global denylist or in the token's path denylist, `check_permission` fails
with a 403 (Forbidden) error, regardless of any allowlist entry. -/
theorem c1_denylist_precedence (s : TMState) (res eres : String → String)
    (ti : TokenInfo) (operation : String) (p : String)
    (command : Option (List String))
    (hadmin : "admin" ∉ ti.scopes)
    (hdeny : (∃ d ∈ s.global_denylist, strStartsWith (res p) (eres d)) ∨
      (∃ d ∈ ti.path_denylist.getD [], strStartsWith (res p) (eres d))) :
    ∃ detail, check_permission s res eres ti operation (some p) command =
      .error (.http 403 detail) :=
  check_permission_path_denied s res eres ti operation p command hadmin
    (check_path_allowed_of_denylist_hit s res eres ti p hdeny)

/-- C1 witness: a read-scoped token with `/etc` denylisted, asking for
`/etc/passwd`, even though its allowlist admits the path. -/
theorem c1_witness :
    ∃ detail,
      check_permission { global_denylist := ["/secret"] } id id
        { tiSample with path_denylist := some ["/etc"],
                        path_allowlist := some ["/etc/passwd"] }
        "fs_read" (some "/etc/passwd") none =
      .error (.http 403 detail) :=
  c1_denylist_precedence { global_denylist := ["/secret"] } id id
    { tiSample with path_denylist := some ["/etc"],
                    path_allowlist := some ["/etc/passwd"] }
    "fs_read" "/etc/passwd" none (by decide)
    (Or.inr ⟨"/etc", by decide, by decide⟩)

/-! ## C4: failure kind for an absent secret -/

/-- C4 counterexample: for a secret absent from the store the code raises
`HTTPException(status_code=403, detail="Invalid token")`
(`validate_token` line 207) — the Forbidden discriminant, not the
401-equivalent Unauthenticated one the claim requires. -/
theorem c4_counterexample :
    validate_token {} 0 "sek" = .error (.http 403 "Invalid token") ∧
    isUnauthenticated (.http 403 "Invalid token") = false := ⟨rfl, rfl⟩

/-- C4 (amended): for every presented non-empty secret absent from the
token store, `validate_token` fails with the Forbidden discriminant
(status 403, `Invalid token`); the 401 Unauthenticated discriminant is
used only for a missing (empty) secret and for expired tokens. -/
theorem c4_absent_secret_forbidden (s : TMState) (now : ℚ) (secret : String)
    (hne : secret ≠ "") (habs : dget s.token_lookup secret = none) :
    validate_token s now secret = .error (.http 403 "Invalid token") := by
  unfold validate_token
  rw [if_neg hne, habs]

/-- C4 witness: the empty store and the secret `sek`. -/
theorem c4_witness :
    validate_token {} 0 "sek" = .error (.http 403 "Invalid token") :=
  c4_absent_secret_forbidden {} 0 "sek" (by decide) rfl

/-! ## C5: allowlist flips default-allow to default-deny -/

/-- C5 counterexample: the claim requires default-deny whenever the
allowlist field is PRESENT, but Python evaluates
`if token_info.path_allowlist:` by truthiness (`_check_path_allowed`
line 291), so a present-but-empty allowlist behaves like no allowlist:
the path matches no allowlist entry yet the check succeeds. -/
theorem c5_counterexample :
    ({ tiSample with path_allowlist := some [] } : TokenInfo).path_allowlist
      = some [] ∧
    check_permission {} id id { tiSample with path_allowlist := some [] }
      "fs_read" (some "/anywhere") none = .ok true :=
  ⟨rfl, rfl⟩

/-- C5 (amended): for every non-admin token whose path allowlist is present
AND non-empty, and every supplied path whose resolved form matches no
allowlist prefix and no denylist prefix, `check_permission` fails with a
403 (Forbidden) error: a non-empty allowlist flips path evaluation from
default-allow to default-deny. -/
theorem c5_allowlist_default_deny (s : TMState) (res eres : String → String)
    (ti : TokenInfo) (operation : String) (p : String)
    (command : Option (List String)) (al : List String)
    (hadmin : "admin" ∉ ti.scopes)
    (hal : ti.path_allowlist = some al) (hne : al ≠ [])
    (hmiss : ∀ a ∈ al, strStartsWith (res p) (eres a) = false)
    (hgd : ∀ d ∈ s.global_denylist, strStartsWith (res p) (eres d) = false)
    (htd : ∀ d ∈ ti.path_denylist.getD [],
      strStartsWith (res p) (eres d) = false) :
    ∃ detail, check_permission s res eres ti operation (some p) command =
      .error (.http 403 detail) :=
  check_permission_path_denied s res eres ti operation p command hadmin
    (check_path_allowed_of_allowlist_miss s res eres ti p al hal hne hmiss)

/-- C5 witness: a read-scoped token allowed only under `/home`, asking for
`/anywhere`. -/
theorem c5_witness :
    ∃ detail,
      check_permission {} id id
        { tiSample with path_allowlist := some ["/home"] }
        "fs_read" (some "/anywhere") none = .error (.http 403 detail) :=
  c5_allowlist_default_deny {} id id
    { tiSample with path_allowlist := some ["/home"] }
    "fs_read" "/anywhere" none ["/home"] (by decide) rfl (by decide)
    (by decide) (by decide) (by decide)

/-! ## C9: no scope requirement outside the six mapped operations -/

/-- C9: for every operation name outside
`{fs_ls, fs_read, fs_write, fs_mkdir, fs_rm, exec}`, `check_permission`
imposes no scope requirement: it succeeds for any token (even with an
empty scope set) provided any supplied path and command pass the
allow/deny rule evaluation. -/
theorem c9_no_scope_requirement (s : TMState) (res eres : String → String)
    (ti : TokenInfo) (operation : String) (path : Option String)
    (command : Option (List String))
    (hop : operation ∉
      ["fs_ls", "fs_read", "fs_write", "fs_mkdir", "fs_rm", "exec"])
    (hpath : ∀ p, path = some p → check_path_allowed s res eres ti p = true)
    (hcmd : ∀ c, command = some c → c.isEmpty = false →
      check_command_allowed ti c = true) :
    check_permission s res eres ti operation path command = .ok true := by
  simp only [List.mem_cons, List.mem_singleton, not_or] at hop
  obtain ⟨h1, h2, h3, h4, h5, h6, -⟩ := hop
  unfold check_permission
  by_cases hadmin : "admin" ∈ ti.scopes
  · rw [if_pos hadmin]
  rw [if_neg hadmin]
  rw [if_neg (by rintro ⟨h1 | h2, -⟩ <;> simp_all)]
  rw [if_neg (by rintro ⟨h1 | h2, -⟩ <;> simp_all)]
  rw [if_neg (by rintro ⟨h, -⟩; exact h5 h)]
  rw [if_neg (by rintro ⟨h, -⟩; exact h6 h)]
  rw [if_neg (by rintro ⟨h, -⟩; exact h6 h)]
  have hcmdcond : ∀ c, command = some c →
      ¬(¬c.isEmpty = true ∧ check_command_allowed ti c = false) := by
    rintro c hc ⟨hce, hcf⟩
    rw [hcmd c hc (by simpa using hce)] at hcf
    exact Bool.true_eq_false.mp hcf
  have hce : ∀ c, command = some c → ¬c = [] →
      check_command_allowed ti c = true := by
    intro c hc hne
    refine hcmd c hc ?_
    cases c with
    | nil => exact absurd rfl hne
    | cons a t => rfl
  cases path with
  | none =>
    cases command with
    | none => rfl
    | some c =>
      simp only [hcmdcond c rfl]
      simp
  | some p =>
    have hp := hpath p rfl
    cases command with
    | none => simp [hp]
    | some c =>
      simp [hp, hcmdcond c rfl]
      exact hce c rfl

/-- C9 witness: a token with an empty scope set performing the `legacy`
operation with a path and a command that pass the rule evaluation. -/
theorem c9_witness :
    check_permission {} id id { tiSample with scopes := [] } "legacy"
      (some "/tmp/a") (some ["git", "status"]) = .ok true :=
  c9_no_scope_requirement {} id id { tiSample with scopes := [] } "legacy"
    (some "/tmp/a") (some ["git", "status"]) (by decide)
    (by intro p hp; cases hp; decide)
    (by intro c hc _; cases hc; decide)

/-! ## C2: approval decisions are not exactly-once -/

/-- C2 counterexample: `approve`/`deny` only test queue membership, not the
current status (`security.py` lines 545-559), and the entry stays queued
until the waiter observes it.  After `approve(r)` succeeds, a subsequent
`deny(r)` against the same id also returns true and overwrites the
recorded decision, so the waiter's next poll observes the denial — the
second call, not the first, determined the outcome. -/
theorem c2_counterexample :
    (approve (request_approval {} "r1" "fs_rm" 0).2 "r1").1 = true ∧
    (deny (approve (request_approval {} "r1" "fs_rm" 0).2 "r1").2 "r1").1 =
      true ∧
    dget (deny (approve (request_approval {} "r1" "fs_rm" 0).2 "r1").2
        "r1").2.pending "r1" = some (opSample "denied") ∧
    (check_approval_poll
        (deny (approve (request_approval {} "r1" "fs_rm" 0).2 "r1").2 "r1").2
        "r1").1 = some false := by
  exact ⟨rfl, rfl, rfl, rfl⟩

/-- C2 (amended): only the waiter's removal is exactly-once.  Once the
request id is absent from the queue (after `check_approval` observes a
decision or times out), `approve` and `deny` are no-ops returning false;
but while the entry is still queued, a later `approve` or `deny` returns
true and overwrites the recorded status, so the waiter observes the last
decision recorded before its poll, not the first. -/
theorem c2_approval_decision (q : AQState) (request_id : String) :
    (dget q.pending request_id = none →
      approve q request_id = (false, q) ∧ deny q request_id = (false, q)) ∧
    (∀ op, dget q.pending request_id = some op →
      approve q request_id = (true,
        ⟨dinsert q.pending request_id { op with status := "approved" }⟩) ∧
      deny q request_id = (true,
        ⟨dinsert q.pending request_id { op with status := "denied" }⟩)) := by
  constructor
  · intro h
    unfold approve deny
    rw [h]
    exact ⟨rfl, rfl⟩
  · intro op h
    unfold approve deny
    rw [h]
    exact ⟨rfl, rfl⟩

/-- C2 witness: instantiating the amended claim on the empty queue (absent
id: both calls are no-ops) and on a queue holding a pending entry (the
`deny` overwrites an already-approved status). -/
theorem c2_witness :
    (approve {} "r1" = (false, {}) ∧ deny {} "r1" = (false, {})) ∧
    deny (qSample "approved") "r1" =
      (true, ⟨dinsert (qSample "approved").pending "r1"
        { opSample "approved" with status := "denied" }⟩) := by
  refine ⟨(c2_approval_decision {} "r1").1 rfl, ?_⟩
  exact ((c2_approval_decision (qSample "approved") "r1").2
    (opSample "approved") rfl).2

/-! ## C8: legacy-token migration crashes on a fresh secret -/

/-- C8: the claim matches the documented intent of
`migrate_legacy_tokens`, but the code is broken: it calls
`create_token(..., token=token, ...)` while `create_token` itself passes
`token=` to the `TokenInfo` constructor, so Python raises
`TypeError: got multiple values for keyword argument` for every secret
not already present, and nothing is registered.  This theorem evaluates
the embedded code at the failing input. -/
theorem c8_migration_type_error :
    migrate_legacy_tokens {} [("aa", "bb")] ["legacy-secret-1"] 0 =
      .error (.typeError "got multiple values for keyword argument token") :=
  rfl

/-! ## C3: token rotation -/

/-- The stored secret/lookup correspondence holds for the one-token sample
state. -/
theorem tmSample_inv : TMInv tmSample := by
  constructor
  · intro tid ti h
    by_cases he : ("t1" : String) = tid
    · subst he
      have h2 : dget tmSample.tokens "t1" = some tiSample := rfl
      rw [h2] at h
      have h3 : tiSample = ti := Option.some.inj h
      rw [← h3]
      rfl
    · have h2 : dget tmSample.tokens tid = none := by
        simp [tmSample, dget, he]
      rw [h2] at h
      exact Option.noConfusion h
  · intro sec tid h
    by_cases he : ("sek" : String) = sec
    · subst he
      have h2 : dget tmSample.token_lookup "sek" = some "t1" := rfl
      rw [h2] at h
      have h3 : tid = "t1" := (Option.some.inj h).symm
      rw [h3]
      exact ⟨tiSample, rfl, rfl⟩
    · have h2 : dget tmSample.token_lookup sec = none := by
        simp [tmSample, dget, he]
      rw [h2] at h
      exact Option.noConfusion h

/-- C3: under the secret/token-id correspondence invariant, rotating a
stored token (with a non-empty id, as the truthiness guard in
`validate_token` requires) to a fresh non-empty secret is a single atomic state
transition after which the old secret no longer validates (it is not even
recognized), the new secret maps to the same token-id and validates to the
same token record carrying the new secret, and the invariant — each secret
maps to exactly one token-id — is preserved.  There is no intermediate
state: `rotate_token` runs under the manager lock and the embedding makes
it one transition from `s` to `rotated s tid ti nt`. -/
theorem c3_rotation (s : TMState) (tid : String) (ti : TokenInfo)
    (nt : String) (now : ℚ)
    (hinv : TMInv s) (htid : tid ≠ "")
    (hti : dget s.tokens tid = some ti)
    (hfresh : dget s.token_lookup nt = none) (hnt : nt ≠ "")
    (hold : ti.token ≠ "") (hen : ti.enabled = true)
    (hexp : ∀ e, ti.expires = some e → ¬now > e) :
    rotate_token s tid nt = .ok (nt, rotated s tid ti nt) ∧
    validate_token (rotated s tid ti nt) now ti.token =
      .error (.http 403 "Invalid token") ∧
    dget (rotated s tid ti nt).token_lookup nt = some tid ∧
    validate_token (rotated s tid ti nt) now nt =
      .ok ({ ti with token := nt, last_used := some now },
        { rotated s tid ti nt with
          tokens := dinsert (rotated s tid ti nt).tokens tid
            { ti with token := nt, last_used := some now } }) ∧
    TMInv (rotated s tid ti nt) := by
  have hlook : dget s.token_lookup ti.token = some tid := hinv.1 tid ti hti
  have hne_nt : ti.token ≠ nt := by
    intro h
    rw [h, hfresh] at hlook
    exact Option.noConfusion hlook
  refine ⟨?_, ?_, ?_, ?_, ?_⟩
  · unfold rotate_token
    rw [hti]
    rfl
  · have hnone : dget (rotated s tid ti nt).token_lookup ti.token = none := by
      show dget (dinsert (derase s.token_lookup ti.token) nt tid)
        ti.token = none
      rw [dget_dinsert_ne _ _ _ _ hne_nt, dget_derase_self]
    unfold validate_token
    rw [if_neg hold, hnone]
  · exact dget_dinsert_self _ _ _
  · have h1 : dget (rotated s tid ti nt).token_lookup nt = some tid :=
      dget_dinsert_self _ _ _
    have h2 : dget (rotated s tid ti nt).tokens tid =
        some { ti with token := nt } := dget_dinsert_self _ _ _
    unfold validate_token
    rw [if_neg hnt]
    cases hx : ti.expires with
    | none => simp [h1, h2, hen, hx, htid]
    | some e => simp [h1, h2, hen, hx, htid, hexp e hx]
  · constructor
    · intro tid2 ti2 h2
      by_cases he : tid = tid2
      · subst he
        have h3 : dget (rotated s tid ti nt).tokens tid =
            some { ti with token := nt } := dget_dinsert_self _ _ _
        rw [h3] at h2
        have h4 : ({ ti with token := nt } : TokenInfo) = ti2 :=
          Option.some.inj h2
        rw [← h4]
        exact dget_dinsert_self _ _ _
      · have h2e : dget s.tokens tid2 = some ti2 := by
          rwa [show (rotated s tid ti nt).tokens =
              dinsert s.tokens tid { ti with token := nt } from rfl,
            dget_dinsert_ne _ _ _ _ (fun hh => he hh.symm)] at h2
        have hl2 : dget s.token_lookup ti2.token = some tid2 :=
          hinv.1 tid2 ti2 h2e
        have hnt2 : ti2.token ≠ nt := by
          intro hh
          rw [hh, hfresh] at hl2
          exact Option.noConfusion hl2
        have hold2 : ti2.token ≠ ti.token := by
          intro hh
          rw [hh, hlook] at hl2
          exact he (Option.some.inj hl2)
        show dget (dinsert (derase s.token_lookup ti.token) nt tid)
          ti2.token = some tid2
        rw [dget_dinsert_ne _ _ _ _ hnt2, dget_derase_ne _ _ _ hold2]
        exact hl2
    · intro sec tid2 h2
      by_cases hsec : sec = nt
      · have h3 : dget (rotated s tid ti nt).token_lookup sec = some tid := by
          rw [hsec]
          exact dget_dinsert_self _ _ _
        rw [h3] at h2
        have h4 : tid = tid2 := Option.some.inj h2
        rw [← h4]
        exact ⟨{ ti with token := nt }, dget_dinsert_self _ _ _, hsec.symm⟩
      · have h2b : dget (derase s.token_lookup ti.token) sec = some tid2 := by
          rwa [show (rotated s tid ti nt).token_lookup =
              dinsert (derase s.token_lookup ti.token) nt tid from rfl,
            dget_dinsert_ne _ _ _ _ hsec] at h2
        by_cases hso : sec = ti.token
        · rw [hso, dget_derase_self] at h2b
          exact Option.noConfusion h2b
        · rw [dget_derase_ne _ _ _ hso] at h2b
          obtain ⟨ti3, h3, h3t⟩ := hinv.2 sec tid2 h2b
          have htid2 : tid2 ≠ tid := by
            intro hh
            rw [hh, hti] at h3
            have h5 : ti = ti3 := Option.some.inj h3
            rw [← h5] at h3t
            exact hso h3t.symm
          refine ⟨ti3, ?_, h3t⟩
          show dget (dinsert s.tokens tid { ti with token := nt }) tid2 =
            some ti3
          rw [dget_dinsert_ne _ _ _ _ htid2]
          exact h3

/-- C3 witness: rotating the sample token `t1` from secret `sek` to
`newsek` at time 0. -/
theorem c3_witness :
    rotate_token tmSample "t1" "newsek" =
      .ok ("newsek", rotated tmSample "t1" tiSample "newsek") ∧
    validate_token (rotated tmSample "t1" tiSample "newsek") 0
        tiSample.token = .error (.http 403 "Invalid token") ∧
    dget (rotated tmSample "t1" tiSample "newsek").token_lookup "newsek" =
      some "t1" ∧
    validate_token (rotated tmSample "t1" tiSample "newsek") 0 "newsek" =
      .ok ({ tiSample with token := "newsek", last_used := some 0 },
        { rotated tmSample "t1" tiSample "newsek" with
          tokens := dinsert (rotated tmSample "t1" tiSample "newsek").tokens
            "t1" { tiSample with token := "newsek", last_used := some 0 } }) ∧
    TMInv (rotated tmSample "t1" tiSample "newsek") :=
  c3_rotation tmSample "t1" tiSample "newsek" 0 tmSample_inv (by decide)
    rfl rfl (by decide) (by decide) rfl (fun e he => Option.noConfusion he)

/-! ## String and list helper lemmas for the rate limiter -/

theorem strAppend_empty (s : String) : s ++ "" = s := by
  cases s with
  | mk d =>
    show String.mk (d ++ []) = String.mk d
    rw [List.append_nil]

theorem strAppend_assoc (a b c : String) : a ++ b ++ c = a ++ (b ++ c) := by
  cases a with
  | mk da =>
    cases b with
    | mk db =>
      cases c with
      | mk dc =>
        show String.mk (da ++ db ++ dc) = String.mk (da ++ (db ++ dc))
        rw [List.append_assoc]

/-- The rate-limit message for the minute window, flattened. -/
theorem rateLimitMsg_minute (limit : Nat) :
    rateLimitMsg limit 60 none =
      "Rate limit exceeded: " ++ toString limit ++
        " requests per minute" := by
  unfold rateLimitMsg
  rw [show windowDesc 60 = "minute" from rfl, show opDesc none = "" from rfl,
    strAppend_empty, strAppend_assoc]
  rw [show (" requests per " ++ "minute" : String) =
    " requests per minute" from rfl]

/-- The rate-limit message for the hour window, flattened. -/
theorem rateLimitMsg_hour (limit : Nat) :
    rateLimitMsg limit 3600 none =
      "Rate limit exceeded: " ++ toString limit ++
        " requests per hour" := by
  unfold rateLimitMsg
  rw [show windowDesc 3600 = "hour" from rfl, show opDesc none = "" from rfl,
    strAppend_empty, strAppend_assoc]
  rw [show (" requests per " ++ "hour" : String) =
    " requests per hour" from rfl]

theorem dropWhile_eq_self_of_all {p : ℚ → Bool} {l : List ℚ}
    (h : ∀ x ∈ l, p x = false) : l.dropWhile p = l := by
  cases l with
  | nil => rfl
  | cons a t =>
    rw [List.dropWhile_cons]
    simp [h a (List.mem_cons_self a t)]

theorem dropWhile_eq_nil_of_all {p : ℚ → Bool} {l : List ℚ}
    (h : ∀ x ∈ l, p x = true) : l.dropWhile p = [] := by
  induction l with
  | nil => rfl
  | cons a t ih =>
    rw [List.dropWhile_cons]
    simp only [h a (List.mem_cons_self a t), if_true]
    exact ih fun x hx => h x (List.mem_cons_of_mem a hx)

/-! ## Evaluation lemmas for `check_window` and `check_and_record` -/

/-- A window check below the limit: nothing pruned or kept as given, the
timestamp is recorded. -/
theorem check_window_pass (storage : List (String × List ℚ)) (key : String)
    (now : ℚ) (window limit : Nat) (pruned : List ℚ)
    (hp : ((dget storage key).getD []).dropWhile
      (fun x => decide (x < now - (window : ℚ))) = pruned)
    (hlt : pruned.length < limit) :
    check_window storage key now window limit none =
      (none, dinsert storage key (pruned ++ [now])) := by
  unfold check_window
  simp only [hp]
  rw [if_neg (by omega)]

/-- A window check at or above the limit: the call fails and the pruned
history is kept (no rollback, no recording). -/
theorem check_window_fail (storage : List (String × List ℚ)) (key : String)
    (now : ℚ) (window limit : Nat) (pruned : List ℚ)
    (hp : ((dget storage key).getD []).dropWhile
      (fun x => decide (x < now - (window : ℚ))) = pruned)
    (hge : limit ≤ pruned.length) :
    check_window storage key now window limit none =
      (some (.http 429 (rateLimitMsg limit window none)),
        dinsert storage key pruned) := by
  unfold check_window
  simp only [hp]
  rw [if_pos hge]

/-- With only a per-minute limit configured, `check_and_record` is exactly
the minute-window check. -/
theorem check_and_record_minute_only (st : RLState) (key : String)
    (lim : Nat) (now : ℚ) :
    check_and_record st key [("requests_per_minute", lim)] none now =
      ((check_window st.per_minute key now 60 lim none).1,
        { st with per_minute :=
          (check_window st.per_minute key now 60 lim none).2 }) := by
  unfold check_and_record
  cases hcw : check_window st.per_minute key now 60 lim none with
  | mk e m =>
    simp only [show dget [("requests_per_minute", lim)]
        "requests_per_minute" = some lim from rfl,
      show dget [("requests_per_minute", lim)] "requests_per_hour" =
        (none : Option Nat) from rfl,
      show dget [("requests_per_minute", lim)] "requests_per_day" =
        (none : Option Nat) from rfl, hcw]
    cases e <;> rfl

/-- Successive `check_and_record` calls against a single per-minute limit
all succeed and accumulate their timestamps, as long as the count stays
below the limit and no timestamp ever falls behind a cutoff (`t` bounds
every instant involved from above, and every timestamp is within 60s of
`t`). -/
theorem run_calls_minute (key : String) (N : Nat) (t : ℚ) :
    ∀ (ts : List ℚ) (st : RLState) (pre : List ℚ),
    (dget st.per_minute key).getD [] = pre →
    pre.length + ts.length ≤ N →
    (∀ x ∈ pre, t - 60 ≤ x) → (∀ x ∈ ts, t - 60 ≤ x) →
    (∀ u ∈ ts, u ≤ t) →
    ∃ st2,
      run_calls st key [("requests_per_minute", N)] none ts = (none, st2) ∧
      (dget st2.per_minute key).getD [] = pre ++ ts ∧
      st2.per_hour = st.per_hour ∧ st2.per_day = st.per_day := by
  intro ts
  induction ts with
  | nil =>
    intro st pre h1 _ _ _ _
    exact ⟨st, rfl, by simpa using h1, rfl, rfl⟩
  | cons u ts ih =>
    intro st pre h1 hlen hpre hts hle
    have hu_le : u ≤ t := hle u (List.mem_cons_self u ts)
    have hnodrop :
        (pre.dropWhile fun x => decide (x < u - ((60 : Nat) : ℚ))) = pre := by
      apply dropWhile_eq_self_of_all
      intro x hx
      have hx1 : t - 60 ≤ x := hpre x hx
      have hnx : ¬(x < u - ((60 : Nat) : ℚ)) := by
        have : ((60 : Nat) : ℚ) = 60 := by norm_num
        rw [this]
        linarith
      exact decide_eq_false hnx
    have hlen2 : pre.length + ts.length + 1 ≤ N := by
      simpa [List.length_cons, Nat.add_assoc] using hlen
    have hcw : check_window st.per_minute key u 60 N none =
        (none, dinsert st.per_minute key (pre ++ [u])) := by
      apply check_window_pass st.per_minute key u 60 N pre
      · rw [h1]
        exact hnodrop
      · omega
    have hcar : check_and_record st key [("requests_per_minute", N)]
        none u =
        (none, { st with
          per_minute := dinsert st.per_minute key (pre ++ [u]) }) := by
      rw [check_and_record_minute_only, hcw]
    obtain ⟨st2, hrun, hh2, hhr, hdy⟩ := ih
      { st with per_minute := dinsert st.per_minute key (pre ++ [u]) }
      (pre ++ [u])
      (by
        show (dget (dinsert st.per_minute key (pre ++ [u])) key).getD [] =
          pre ++ [u]
        rw [dget_dinsert_self]
        rfl)
      (by simp only [List.length_append, List.length_singleton]; omega)
      (by
        intro x hx
        rcases List.mem_append.mp hx with h | h
        · exact hpre x h
        · have hxu : x = u := by simpa using h
          rw [hxu]
          exact hts u (List.mem_cons_self u ts))
      (fun x hx => hts x (List.mem_cons_of_mem u hx))
      (fun x hx => hle x (List.mem_cons_of_mem u hx))
    refine ⟨st2, ?_, ?_, hhr, hdy⟩
    · show run_calls st key [("requests_per_minute", N)] none (u :: ts) =
        (none, st2)
      simp only [run_calls]
      rw [hcar]
      exact hrun
    · rw [hh2]
      simp

/-! ## C6: the rate limiter is a true sliding window -/

/-- C6: with a per-minute limit of `N` and a fresh fingerprint, `N` calls
all within the trailing 60 seconds of every later instant succeed; the
`(N+1)`-th call at `t`, whose trailing 60-second window still contains all
`N` recorded timestamps, fails with the 429 message naming the minute
window and the limit `N` (and records nothing); and a later call at
`tLater`, made after every earlier timestamp has fallen outside the
trailing 60 seconds, succeeds again — a sliding window, not a
fixed-interval reset. -/
theorem c6_sliding_window (key : String) (N : Nat) (ts : List ℚ)
    (t tLater : ℚ) (st : RLState)
    (hN : 0 < N) (hlen : ts.length = N)
    (hfresh : (dget st.per_minute key).getD [] = [])
    (hin : ∀ x ∈ ts, t - 60 ≤ x) (hle : ∀ u ∈ ts, u ≤ t)
    (hout : ∀ x ∈ ts, x < tLater - 60) :
    ∃ st1 st2,
      run_calls st key [("requests_per_minute", N)] none ts =
        (none, st1) ∧
      check_and_record st1 key [("requests_per_minute", N)] none t =
        (some (.http 429 ("Rate limit exceeded: " ++ toString N ++
          " requests per minute")), st2) ∧
      (check_and_record st2 key [("requests_per_minute", N)] none tLater).1
        = none := by
  obtain ⟨st1, hrun, hh1, hhr, hdy⟩ := run_calls_minute key N t ts st []
    hfresh (by simpa using hlen.le) (fun x hx => absurd hx (List.not_mem_nil x))
    hin hle
  have hh1e : (dget st1.per_minute key).getD [] = ts := by simpa using hh1
  have hcast : ((60 : Nat) : ℚ) = 60 := by norm_num
  have hcwf : check_window st1.per_minute key t 60 N none =
      (some (.http 429 (rateLimitMsg N 60 none)),
        dinsert st1.per_minute key ts) := by
    apply check_window_fail st1.per_minute key t 60 N ts
    · rw [hh1e]
      apply dropWhile_eq_self_of_all
      intro x hx
      refine decide_eq_false ?_
      have := hin x hx
      rw [hcast]
      linarith
    · omega
  refine ⟨st1, { st1 with per_minute := dinsert st1.per_minute key ts },
    hrun, ?_, ?_⟩
  · rw [check_and_record_minute_only, hcwf, rateLimitMsg_minute]
  · rw [check_and_record_minute_only]
    have hcwp : check_window
        (dinsert st1.per_minute key ts) key tLater 60 N none =
        (none, dinsert (dinsert st1.per_minute key ts) key ([] ++ [tLater]))
        := by
      apply check_window_pass _ key tLater 60 N []
      · have hdg : (dget (dinsert st1.per_minute key ts) key).getD [] =
            ts := by
          rw [dget_dinsert_self]
          rfl
        rw [hdg]
        apply dropWhile_eq_nil_of_all
        intro x hx
        refine decide_eq_true ?_
        have := hout x hx
        rw [hcast]
        linarith
      · simpa using hN
    show (check_window (dinsert st1.per_minute key ts) key tLater 60 N
      none).1 = none
    rw [hcwp]

/-- C6 witness: limit 2, calls at times 0 and 1, a third call at 30 that
is rejected, and a call at 1000 that succeeds again. -/
theorem c6_witness :
    ∃ st1 st2,
      run_calls {} "k" [("requests_per_minute", 2)] none [0, 1] =
        (none, st1) ∧
      check_and_record st1 "k" [("requests_per_minute", 2)] none 30 =
        (some (.http 429 ("Rate limit exceeded: " ++ toString 2 ++
          " requests per minute")), st2) ∧
      (check_and_record st2 "k" [("requests_per_minute", 2)] none 1000).1
        = none :=
  c6_sliding_window "k" 2 [0, 1] 30 1000 {} (by decide) rfl rfl
    (by
      intro x hx
      rcases List.mem_cons.mp hx with h | h
      · rw [h]; norm_num
      · have : x = 1 := by simpa using h
        rw [this]; norm_num)
    (by
      intro u hu
      rcases List.mem_cons.mp hu with h | h
      · rw [h]; norm_num
      · have : u = 1 := by simpa using h
        rw [this]; norm_num)
    (by
      intro x hx
      rcases List.mem_cons.mp hx with h | h
      · rw [h]; norm_num
      · have : x = 1 := by simpa using h
        rw [this]; norm_num)

/-! ## C10: earlier windows keep the recorded timestamp, later windows
are untouched -/

/-- C10: with minute, hour and day windows all configured, when the minute
check passes and the hour check then fails, `check_and_record` fails with
the hour message, the timestamp appended to the minute history is retained
(no rollback), and the day store is unchanged (never reached). -/
theorem c10_no_rollback (st : RLState) (key : String) (M H D : Nat)
    (now : ℚ)
    (hm : ((((dget st.per_minute key).getD []).dropWhile
      (fun x => decide (x < now - ((60 : Nat) : ℚ))))).length < M)
    (hh : H ≤ ((((dget st.per_hour key).getD []).dropWhile
      (fun x => decide (x < now - ((3600 : Nat) : ℚ))))).length) :
    ∃ st2,
      check_and_record st key
        [("requests_per_minute", M), ("requests_per_hour", H),
          ("requests_per_day", D)] none now =
        (some (.http 429 ("Rate limit exceeded: " ++ toString H ++
          " requests per hour")), st2) ∧
      dget st2.per_minute key =
        some ((((dget st.per_minute key).getD []).dropWhile
          (fun x => decide (x < now - ((60 : Nat) : ℚ)))) ++ [now]) ∧
      st2.per_day = st.per_day := by
  have hcwm : check_window st.per_minute key now 60 M none =
      (none, dinsert st.per_minute key
        ((((dget st.per_minute key).getD []).dropWhile
          (fun x => decide (x < now - ((60 : Nat) : ℚ)))) ++ [now])) :=
    check_window_pass st.per_minute key now 60 M _ rfl hm
  have hcwh : check_window st.per_hour key now 3600 H none =
      (some (.http 429 (rateLimitMsg H 3600 none)),
        dinsert st.per_hour key
          (((dget st.per_hour key).getD []).dropWhile
            (fun x => decide (x < now - ((3600 : Nat) : ℚ))))) :=
    check_window_fail st.per_hour key now 3600 H _ rfl hh
  refine ⟨{ st with
      per_minute := dinsert st.per_minute key
        ((((dget st.per_minute key).getD []).dropWhile
          (fun x => decide (x < now - ((60 : Nat) : ℚ)))) ++ [now]),
      per_hour := dinsert st.per_hour key
        (((dget st.per_hour key).getD []).dropWhile
          (fun x => decide (x < now - ((3600 : Nat) : ℚ)))) },
    ?_, dget_dinsert_self _ _ _, rfl⟩
  unfold check_and_record
  simp only [show dget [("requests_per_minute", M), ("requests_per_hour", H),
      ("requests_per_day", D)] "requests_per_minute" = some M from rfl,
    show dget [("requests_per_minute", M), ("requests_per_hour", H),
      ("requests_per_day", D)] "requests_per_hour" = some H from rfl,
    hcwm, hcwh, rateLimitMsg_hour]

/-- C10 witness: minute limit 5 (one prior timestamp), hour limit 2
already filled by timestamps 10 and 20, day limit 9, call at time 30. -/
theorem c10_witness :
    ∃ st2,
      check_and_record
        { per_minute := [("k", [25])], per_hour := [("k", [10, 20])] } "k"
        [("requests_per_minute", 5), ("requests_per_hour", 2),
          ("requests_per_day", 9)] none 30 =
        (some (.http 429 ("Rate limit exceeded: " ++ toString 2 ++
          " requests per hour")), st2) ∧
      dget st2.per_minute "k" =
        some (((((dget
          ({ per_minute := [("k", [25])], per_hour := [("k", [10, 20])] }
            : RLState).per_minute "k").getD []).dropWhile
          (fun x => decide (x < 30 - ((60 : Nat) : ℚ)))) ++ [30])) ∧
      st2.per_day =
        ({ per_minute := [("k", [25])], per_hour := [("k", [10, 20])] }
          : RLState).per_day :=
  c10_no_rollback
    { per_minute := [("k", [25])], per_hour := [("k", [10, 20])] }
    "k" 5 2 9 30 (by norm_num [dget, List.dropWhile])
    (by norm_num [dget, List.dropWhile])

/-! ## C7: a non-rate-limit failure records no rate-limit usage -/

/-- Every error produced by `check_window` is a 429 `RateLimitExceeded`. -/
theorem check_window_err_429 (storage : List (String × List ℚ))
    (key : String) (now : ℚ) (window limit : Nat)
    (operation : Option String) (e : Err) (m : List (String × List ℚ))
    (h : check_window storage key now window limit operation = (some e, m)) :
    isRateLimited e = true := by
  simp only [check_window] at h
  split at h
  · have he : Err.http 429 (rateLimitMsg limit window operation) = e :=
      Option.some.inj (congrArg Prod.fst h)
    rw [← he]
    rfl
  · exact Option.noConfusion (congrArg Prod.fst h)

/-- Every error produced by `check_and_record` is a 429
`RateLimitExceeded`. -/
theorem check_and_record_err_429 (st : RLState) (key : String)
    (limits : List (String × Nat)) (op : Option String) (now : ℚ)
    (e : Err) (st2 : RLState)
    (h : check_and_record st key limits op now = (some e, st2)) :
    isRateLimited e = true := by
  unfold check_and_record at h
  cases hm : dget limits "requests_per_minute" with
  | some lim =>
    cases hw : check_window st.per_minute key now 60 lim op with
    | mk e1 m1 =>
      cases e1 with
      | some err =>
        simp only [hm, hw] at h
        have he : err = e := Option.some.inj (congrArg Prod.fst h)
        rw [← he]
        exact check_window_err_429 _ _ _ _ _ _ _ _ hw
      | none =>
        simp only [hm, hw] at h
        cases hh : dget limits "requests_per_hour" with
        | some lim2 =>
          cases hw2 : check_window ({ st with per_minute := m1 }).per_hour
              key now 3600 lim2 op with
          | mk e2 m2 =>
            cases e2 with
            | some err =>
              simp only [hh, hw2] at h
              have he : err = e := Option.some.inj (congrArg Prod.fst h)
              rw [← he]
              exact check_window_err_429 _ _ _ _ _ _ _ _ hw2
            | none =>
              simp only [hh, hw2] at h
              cases hd : dget limits "requests_per_day" with
              | some lim3 =>
                cases hw3 : check_window
                    ({ st with per_minute := m1, per_hour := m2 }).per_day
                    key now 86400 lim3 op with
                | mk e3 m3 =>
                  cases e3 with
                  | some err =>
                    simp only [hd, hw3] at h
                    have he : err = e := Option.some.inj (congrArg Prod.fst h)
                    rw [← he]
                    exact check_window_err_429 _ _ _ _ _ _ _ _ hw3
                  | none =>
                    simp only [hd, hw3] at h
                    exact Option.noConfusion (congrArg Prod.fst h)
              | none =>
                  simp only [hd] at h
                  exact Option.noConfusion (congrArg Prod.fst h)
        | none =>
          simp only [hh] at h
          cases hd : dget limits "requests_per_day" with
          | some lim3 =>
            cases hw3 : check_window ({ st with per_minute := m1 }).per_day
                key now 86400 lim3 op with
            | mk e3 m3 =>
              cases e3 with
              | some err =>
                simp only [hd, hw3] at h
                have he : err = e := Option.some.inj (congrArg Prod.fst h)
                rw [← he]
                exact check_window_err_429 _ _ _ _ _ _ _ _ hw3
              | none =>
                simp only [hd, hw3] at h
                exact Option.noConfusion (congrArg Prod.fst h)
          | none =>
              simp only [hd] at h
              exact Option.noConfusion (congrArg Prod.fst h)
  | none =>
    simp only [hm] at h
    cases hh : dget limits "requests_per_hour" with
    | some lim2 =>
      cases hw2 : check_window st.per_hour key now 3600 lim2 op with
      | mk e2 m2 =>
        cases e2 with
        | some err =>
          simp only [hh, hw2] at h
          have he : err = e := Option.some.inj (congrArg Prod.fst h)
          rw [← he]
          exact check_window_err_429 _ _ _ _ _ _ _ _ hw2
        | none =>
          simp only [hh, hw2] at h
          cases hd : dget limits "requests_per_day" with
          | some lim3 =>
            cases hw3 : check_window ({ st with per_hour := m2 }).per_day
                key now 86400 lim3 op with
            | mk e3 m3 =>
              cases e3 with
              | some err =>
                simp only [hd, hw3] at h
                have he : err = e := Option.some.inj (congrArg Prod.fst h)
                rw [← he]
                exact check_window_err_429 _ _ _ _ _ _ _ _ hw3
              | none =>
                simp only [hd, hw3] at h
                exact Option.noConfusion (congrArg Prod.fst h)
          | none =>
              simp only [hd] at h
              exact Option.noConfusion (congrArg Prod.fst h)
    | none =>
      simp only [hh] at h
      cases hd : dget limits "requests_per_day" with
      | some lim3 =>
        cases hw3 : check_window st.per_day key now 86400 lim3 op with
        | mk e3 m3 =>
          cases e3 with
          | some err =>
            simp only [hd, hw3] at h
            have he : err = e := Option.some.inj (congrArg Prod.fst h)
            rw [← he]
            exact check_window_err_429 _ _ _ _ _ _ _ _ hw3
          | none =>
              simp only [hd, hw3] at h
              exact Option.noConfusion (congrArg Prod.fst h)
      | none =>
          simp only [hd] at h
          exact Option.noConfusion (congrArg Prod.fst h)

/-- C7: whenever the authorization pipeline fails for any reason other
than the rate-limit check itself — missing/malformed header,
unknown/disabled/expired token, missing scope, path or command denial, or
approval denial/timeout — the rate limiter's state is unchanged by the
failing request. -/
theorem c7_failure_records_no_usage (res eres fp : String → String)
    (tm : TMState) (rl : RLState) (ad : Bool) (auth : Option String)
    (operation : String) (path : Option String)
    (command : Option (List String)) (skip : Bool) (now : ℚ)
    (e : Err) (tm2 : TMState) (rl2 : RLState)
    (h : require_auth_and_permission res eres fp tm rl ad auth operation
      path command skip now = (.error e, tm2, rl2))
    (hnr : isRateLimited e = false) :
    rl2 = rl := by
  unfold require_auth_and_permission at h
  cases hpb : parseBearer auth with
  | error e1 =>
    simp only [hpb] at h
    exact (congrArg (fun p => p.2.2) h).symm
  | ok tok =>
      simp only [hpb] at h
      cases hv : validate_token tm now tok with
      | error e1 =>
        simp only [hv] at h
        exact (congrArg (fun p => p.2.2) h).symm
      | ok pr =>
        cases pr with
        | mk ti tmx =>
          simp only [hv] at h
          cases hcp : check_permission tmx res eres ti operation path
              command with
          | error e1 =>
            simp only [hcp] at h
            exact (congrArg (fun p => p.2.2) h).symm
          | ok b =>
            simp only [hcp] at h
            by_cases hap : (operation ∈ ti.require_approval ∨
                operation ∈ tmx.require_approval_operations) ∧ ad = false
            · rw [if_pos hap] at h
              exact (congrArg (fun p => p.2.2) h).symm
            · rw [if_neg hap] at h
              by_cases hskip : skip = true
              · rw [if_pos hskip] at h
                exact Except.noConfusion (congrArg Prod.fst h)
              · rw [if_neg hskip] at h
                cases hr1 : check_and_record rl (fp tok)
                    ti.rate_limits none now with
                | mk e1 rlx =>
                  cases e1 with
                  | some err =>
                    simp only [hr1] at h
                    have he : err = e := by
                      have h1 := congrArg Prod.fst h
                      exact Except.error.inj h1
                    have h429 := check_and_record_err_429 rl (fp tok)
                      ti.rate_limits none now err rlx hr1
                    rw [he, hnr] at h429
                    exact absurd h429 (by decide)
                  | none =>
                    simp only [hr1] at h
                    cases hol : dget ti.operation_limits operation with
                    | none =>
                      simp only [hol] at h
                      exact Except.noConfusion (congrArg Prod.fst h)
                    | some ol =>
                      cases hr2 : check_and_record rlx (fp tok) ol
                          (some operation) now with
                      | mk e2 rly =>
                        cases e2 with
                        | some err =>
                          simp only [hol, hr2] at h
                          have he : err = e := by
                            have h1 := congrArg Prod.fst h
                            exact Except.error.inj h1
                          have h429 := check_and_record_err_429 rlx
                            (fp tok) ol (some operation) now err rly
                            hr2
                          rw [he, hnr] at h429
                          exact absurd h429 (by decide)
                        | none =>
                          simp only [hol, hr2] at h
                          exact Except.noConfusion (congrArg Prod.fst h)

/-- C7 witness: a request with no Authorization header fails with 401 and
leaves the (empty) limiter state untouched. -/
theorem c7_witness :
    (require_auth_and_permission id id id tmSample {} true none "fs_read"
      none none false 0).2.2 = ({} : RLState) :=
  c7_failure_records_no_usage id id id tmSample {} true none "fs_read"
    none none false 0 (.http 401 "Missing/invalid Authorization header")
    tmSample {} rfl rfl

end Trapdoor
